import Mathlib

/-! Verification development for the DASF toolbox core: the statistics
utilities, the LCMV and MMSE closed-form optimization problems, and the
LCMV data retriever with its piecewise-linear drift-weight sequence.
Matrices are embedded as Mathlib matrices over a field, numpy scalar
division as scalar multiplication by the inverse, and numpy's 1-D array
indexing (with negative-index wraparound) as an explicit `Option`-valued
lookup. -/

namespace DASF

open Matrix

variable {K : Type} [Field K]

/-- Embedding of `utils.make_symmetric`: `(matrix + matrix.T) / 2`. -/
def make_symmetric {m : ℕ} (M : Matrix (Fin m) (Fin m) K) : Matrix (Fin m) (Fin m) K :=
  (2 : K)⁻¹ • (M + Mᵀ)

/-- `np.mean(data, axis=1)`: the vector of row means. -/
def rowMean {m n : ℕ} (data : Matrix (Fin m) (Fin n) K) : Fin m → K :=
  fun i => (∑ j, data i j) / (n : K)

/-- `np.var(data, axis=1)`: the vector of row variances (mean squared
deviation, ddof = 0). -/
def rowVar {m n : ℕ} (data : Matrix (Fin m) (Fin n) K) : Fin m → K :=
  fun i => (∑ j, (data i j - rowMean data i) ^ 2) / (n : K)

/-- Embedding of `utils.autocorrelation_matrix`: `data @ data.T / normalizer`
made symmetric, with `normalizer` defaulting to the sample count. -/
def autocorrelation_matrix {m n : ℕ} (data : Matrix (Fin m) (Fin n) K)
    (normalizer : Option ℕ) : Matrix (Fin m) (Fin m) K :=
  make_symmetric (((normalizer.getD n : ℕ) : K)⁻¹ • (data * dataᵀ))

/-- Embedding of `utils.cross_correlation_matrix`: `data1 @ data2.T / normalizer`,
unsymmetrized. -/
def cross_correlation_matrix {m q n : ℕ} (data1 : Matrix (Fin m) (Fin n) K)
    (data2 : Matrix (Fin q) (Fin n) K) (normalizer : Option ℕ) :
    Matrix (Fin m) (Fin q) K :=
  ((normalizer.getD n : ℕ) : K)⁻¹ • (data1 * data2ᵀ)

/-- Embedding of `utils.covariance_matrix` as numpy evaluates it:
`np.mean(data, axis=1)` is a 1-D array, so
`np.mean(data, axis=1) @ np.mean(data, axis=1).T` is the scalar dot product
of the row-mean vector with itself (the `.T` is a no-op on 1-D arrays), and
subtracting it from the matrix broadcasts the scalar to every entry. -/
def covariance_matrix {m n : ℕ} (data : Matrix (Fin m) (Fin n) K)
    (normalizer : Option ℕ) : Matrix (Fin m) (Fin m) K :=
  make_symmetric
    (((normalizer.getD n : ℕ) : K)⁻¹ • (data * dataᵀ) -
      Matrix.of fun _ _ => ∑ i, rowMean data i * rowMean data i)

/-- Embedding of `utils.cross_covariance_matrix` on its defined-behavior
domain (equal row counts; with different row counts the 1-D dot product
`np.mean(data1,axis=1) @ np.mean(data2,axis=1).T` raises a ValueError).
As in `covariance_matrix`, the subtracted term is a broadcast scalar. -/
def cross_covariance_matrix {m n : ℕ} (data1 : Matrix (Fin m) (Fin n) K)
    (data2 : Matrix (Fin m) (Fin n) K) (normalizer : Option ℕ) :
    Matrix (Fin m) (Fin m) K :=
  ((normalizer.getD n : ℕ) : K)⁻¹ • (data1 * data2ᵀ) -
    Matrix.of fun _ _ => ∑ i, rowMean data1 i * rowMean data2 i

/-- Embedding of `utils.normalize`: subtract the row mean, divide by the
square root of the row variance, multiply by `scale`. The square-root
function of the ambient numerics is passed explicitly. -/
def normalize {m n : ℕ} (sqrtK : K → K) (data : Matrix (Fin m) (Fin n) K)
    (scale : K) : Matrix (Fin m) (Fin n) K :=
  Matrix.of fun i j => scale * (data i j - rowMean data i) / sqrtK (rowVar data i)

/-- `np.linspace(0, 1, k, endpoint=False)`: the ramp `0, 1/k, ..., (k-1)/k`
(written with `mkRat` so that concrete values reduce in the kernel). -/
def linspace01 (k : ℕ) : List ℚ :=
  (List.range k).map fun j => mkRat (Int.ofNat j) k

/-- Embedding of `LCMVDataRetriever.weight_function` (canonical module):
all zeros below 10 windows, otherwise three concatenated endpoint-free
ramps of lengths `⌊5n/10⌋`, `⌊3n/10⌋`, `⌊2n/10⌋`. -/
def weight_function (nb_windows : ℕ) : List ℚ :=
  if nb_windows < 10 then List.replicate nb_windows 0
  else
    linspace01 (5 * nb_windows / 10) ++ linspace01 (3 * nb_windows / 10) ++
      linspace01 (2 * nb_windows / 10)

/-- Embedding of the legacy `data_retriever.LCMVDataRetriever.weight_function`:
the same three ramps but with no small-window branch. -/
def legacy_weight_function (nb_windows : ℕ) : List ℚ :=
  linspace01 (5 * nb_windows / 10) ++ linspace01 (3 * nb_windows / 10) ++
    linspace01 (2 * nb_windows / 10)

/-- Number of downward discontinuities: adjacent pairs whose second element
is strictly below the first. -/
def downSteps (xs : List ℚ) : ℕ :=
  (xs.zip xs.tail).countP fun pr => decide (pr.2 < pr.1)

/-- `np.linalg.inv` on an invertible matrix over a field: `det⁻¹ • adjugate`.
This is a computable form of Mathlib's `Matrix.inv` (see `matInv_eq_inv`). -/
def matInv {k : ℕ} (A : Matrix (Fin k) (Fin k) K) : Matrix (Fin k) (Fin k) K :=
  A.det⁻¹ • A.adjugate

/-- Embedding of `LCMVProblem.solve`:
`X* = inv(Ryy) @ B @ inv(B.T @ inv(Ryy) @ B) @ H.T` with
`Ryy = autocorrelation_matrix(Y)`. -/
def lcmv_solve {m n p q : ℕ} (Y : Matrix (Fin m) (Fin n) K) (B : Matrix (Fin m) (Fin p) K)
    (H : Matrix (Fin q) (Fin p) K) : Matrix (Fin m) (Fin q) K :=
  matInv (autocorrelation_matrix Y none) * B *
    matInv (Bᵀ * matInv (autocorrelation_matrix Y none) * B) * Hᵀ

/-- Embedding of `MMSEProblem.solve`: `X* = inv(Ryy) @ Ryd`. -/
def mmse_solve {m n q : ℕ} (Y : Matrix (Fin m) (Fin n) K) (D : Matrix (Fin q) (Fin n) K) :
    Matrix (Fin m) (Fin q) K :=
  matInv (autocorrelation_matrix Y none) * cross_correlation_matrix Y D none

/-- Column count of an embedded matrix (numpy `X.shape[1]`). -/
def ncols {a b : ℕ} (_ : Matrix (Fin a) (Fin b) K) : ℕ := b

/-- The value returned by `get_problem_constraints`: either a pair of
optional residual functions, or the bare Python `None` that the MMSE
problem returns in place of a pair. -/
inductive ConstraintType (K : Type) (m p q : ℕ) where
  | pair (eq ineq : Option (Matrix (Fin m) (Fin q) K → Matrix (Fin q) (Fin p) K)) :
      ConstraintType K m p q
  | null : ConstraintType K m p q

/-- Embedding of `LCMVProblem.get_problem_constraints`: the pair of the
equality residual `X ↦ X.T @ B - H` and no inequality residual. -/
def lcmv_get_problem_constraints {m p q : ℕ} (B : Matrix (Fin m) (Fin p) K)
    (H : Matrix (Fin q) (Fin p) K) : ConstraintType K m p q :=
  ConstraintType.pair (some fun X => Xᵀ * B - H) none

/-- Embedding of `MMSEProblem.get_problem_constraints`: a bare `None`. -/
def mmse_get_problem_constraints {m p q : ℕ} : ConstraintType K m p q :=
  ConstraintType.null

/-- Modelled from the spec: the windowing-parameters object
(`DataWindowParameters` of `dasftoolbox.data_retrievers.data_retriever`,
whose module is not part of the visible source); the constructor reads only
the window sample length from it. -/
structure DataWindowParameters where
  window_length : ℕ

/-- A seeded random generator, embedded as a deterministic stream of draws
with a cursor; each request reads and consumes successive positions. -/
structure RNG (K : Type) where
  stream : ℕ → K
  pos : ℕ

/-- `rng.normal(loc=0, scale=scale, size=(rows, cols))`: a matrix of
scaled draws in row-major order, together with the advanced generator. -/
def RNG.normalMatrix (g : RNG K) (scale : K) (rows cols : ℕ) :
    Matrix (Fin rows) (Fin cols) K × RNG K :=
  (Matrix.of fun i j => scale * g.stream (g.pos + i.val * cols + j.val),
    ⟨g.stream, g.pos + rows * cols⟩)

/-- `np.linalg.norm(A, "fro")`: Frobenius norm via the ambient square root. -/
def froNorm {a b : ℕ} (sqrtK : K → K) (A : Matrix (Fin a) (Fin b) K) : K :=
  sqrtK (∑ i, ∑ j, A i j ^ 2)

/-- Column count of the numpy slice `A[:, 0:k]` of a matrix with `s` columns:
`k = None` keeps every column, `k = some v` keeps `min v s`. -/
def sliceWidth (s : ℕ) (k : Option ℕ) : ℕ :=
  match k with
  | none => s
  | some v => min v s

/-- The numpy column slice `A[:, 0:k]` itself. -/
def colSlice {a s : ℕ} (A : Matrix (Fin a) (Fin s) K) (k : Option ℕ) :
    Matrix (Fin a) (Fin (sliceWidth s k)) K :=
  Matrix.of fun i j =>
    A i ⟨j.val, lt_of_lt_of_le j.isLt (by cases k <;> simp [sliceWidth])⟩

/-- The stored `self.nb_steering` attribute of an `LCMVDataRetriever`:
`nb_steering if nb_steering is not None else nb_filters`. -/
def stored_nb_steering (nb_filters : ℕ) (nb_steering : Option ℕ) : ℕ :=
  nb_steering.getD nb_filters

/-- State of an `LCMVDataRetriever` after construction; the canonical and the
legacy module lay out the same attributes. The matrix dimensions (including
the width of the stored steering matrix `B` and the dimensions of the
constraint target) are carried at the type level. -/
structure LCMVRetrieverState (K : Type)
    (nb_sensors nb_sources nb_samples Bwidth nb_filters nb_steering : ℕ) where
  D : Matrix (Fin nb_sources) (Fin nb_samples) K
  A_0 : Matrix (Fin nb_sensors) (Fin nb_sources) K
  Delta : Matrix (Fin nb_sensors) (Fin nb_sources) K
  noise : Matrix (Fin nb_sensors) (Fin nb_samples) K
  B : Matrix (Fin nb_sensors) (Fin Bwidth) K
  constraint_target : Matrix (Fin nb_filters) (Fin nb_steering) K
  weights : List ℚ

/-- Embedding of the canonical `LCMVDataRetriever.__init__`: draw `D`, `A_0`,
`Delta` (rescaled to Frobenius norm `diff_var · ‖A_0‖`), the noise, slice the
steering matrix out of `A_0` with the raw `nb_steering` argument (so `None`
keeps every column), draw the constraint target `H` sized by `nb_filters`
and the stored `nb_steering`, and precompute the drift weights. -/
def LCMVDataRetriever_init (sqrtK : K → K) (data_window_params : DataWindowParameters)
    (nb_sensors nb_sources nb_windows : ℕ) (rng : RNG K) (nb_filters : ℕ)
    (nb_steering : Option ℕ) (signal_var noise_var mixture_var diff_var : K) :
    LCMVRetrieverState K nb_sensors nb_sources data_window_params.window_length
      (sliceWidth nb_sources nb_steering) nb_filters
      (stored_nb_steering nb_filters nb_steering) :=
  let nb_samples := data_window_params.window_length
  let dD := rng.normalMatrix (sqrtK signal_var) nb_sources nb_samples
  let dA := dD.2.normalMatrix (sqrtK mixture_var) nb_sensors nb_sources
  let dDelta := dA.2.normalMatrix (sqrtK mixture_var) nb_sensors nb_sources
  let Delta := (froNorm sqrtK dA.1 * diff_var / froNorm sqrtK dDelta.1) • dDelta.1
  let dNoise := dDelta.2.normalMatrix (sqrtK noise_var) nb_sensors nb_samples
  let dH := dNoise.2.normalMatrix 1 nb_filters (stored_nb_steering nb_filters nb_steering)
  { D := dD.1, A_0 := dA.1, Delta := Delta, noise := dNoise.1,
    B := colSlice dA.1 nb_steering, constraint_target := dH.1,
    weights := weight_function nb_windows }

/-- Embedding of the legacy `data_retriever.LCMVDataRetriever.__init__`:
identical draws, with the sample length passed directly and the legacy
weight sequence (which has no small-window branch). -/
def legacy_LCMVDataRetriever_init (sqrtK : K → K)
    (nb_samples nb_sensors nb_sources nb_windows : ℕ) (rng : RNG K) (nb_filters : ℕ)
    (nb_steering : Option ℕ) (signal_var noise_var mixture_var diff_var : K) :
    LCMVRetrieverState K nb_sensors nb_sources nb_samples
      (sliceWidth nb_sources nb_steering) nb_filters
      (stored_nb_steering nb_filters nb_steering) :=
  let dD := rng.normalMatrix (sqrtK signal_var) nb_sources nb_samples
  let dA := dD.2.normalMatrix (sqrtK mixture_var) nb_sensors nb_sources
  let dDelta := dA.2.normalMatrix (sqrtK mixture_var) nb_sensors nb_sources
  let Delta := (froNorm sqrtK dA.1 * diff_var / froNorm sqrtK dDelta.1) • dDelta.1
  let dNoise := dDelta.2.normalMatrix (sqrtK noise_var) nb_sensors nb_samples
  let dH := dNoise.2.normalMatrix 1 nb_filters (stored_nb_steering nb_filters nb_steering)
  { D := dD.1, A_0 := dA.1, Delta := Delta, noise := dNoise.1,
    B := colSlice dA.1 nb_steering, constraint_target := dH.1,
    weights := legacy_weight_function nb_windows }

/-- numpy 1-D indexing `xs[i]`: a nonnegative index below the length is
direct, an index in `[-len, -1]` wraps around from the end, and anything
else raises an IndexError (`none`). -/
def npGet {α : Type} (xs : List α) (i : ℤ) : Option α :=
  if 0 ≤ i then xs[i.toNat]?
  else if (xs.length : ℤ) + i < 0 then none
  else xs[((xs.length : ℤ) + i).toNat]?

/-- The `ProblemInputs` bundle: ordered lists of fused signals, fused
constants and global parameters (each list homogeneous in shape). -/
structure ProblemInputs (K : Type) (sm sn cm cn pm pn : ℕ) where
  fused_signals : List (Matrix (Fin sm) (Fin sn) K)
  fused_constants : List (Matrix (Fin cm) (Fin cn) K)
  global_parameters : List (Matrix (Fin pm) (Fin pn) K)

/-- Embedding of the canonical `LCMVDataRetriever.get_data_window`: index
the drift-weight sequence with numpy semantics, mix
`(A_0 + Delta * w) @ D + noise`, normalize, and package the window with the
steering matrix and the constraint target. -/
def get_data_window {nb_sensors nb_sources nb_samples Bwidth nb_filters nb_steering : ℕ}
    (sqrtK : K → K)
    (self : LCMVRetrieverState K nb_sensors nb_sources nb_samples Bwidth nb_filters
      nb_steering) (window_id : ℤ) :
    Option (ProblemInputs K nb_sensors nb_samples nb_sensors Bwidth nb_filters
      nb_steering) :=
  match npGet self.weights window_id with
  | none => none
  | some w =>
    some
      { fused_signals :=
          [normalize sqrtK ((self.A_0 + (w : K) • self.Delta) * self.D + self.noise) 1],
        fused_constants := [self.B],
        global_parameters := [self.constraint_target] }

/-- Embedding of the legacy `LCMVDataRetriever.get_current_window`: the same
computation as the canonical `get_data_window`. -/
def get_current_window {nb_sensors nb_sources nb_samples Bwidth nb_filters nb_steering : ℕ}
    (sqrtK : K → K)
    (self : LCMVRetrieverState K nb_sensors nb_sources nb_samples Bwidth nb_filters
      nb_steering) (window_id : ℤ) :
    Option (ProblemInputs K nb_sensors nb_samples nb_sensors Bwidth nb_filters
      nb_steering) :=
  match npGet self.weights window_id with
  | none => none
  | some w =>
    some
      { fused_signals :=
          [normalize sqrtK ((self.A_0 + (w : K) • self.Delta) * self.D + self.noise) 1],
        fused_constants := [self.B],
        global_parameters := [self.constraint_target] }

/-- Shape of `A @ B` under numpy matmul: defined only when the inner
dimensions agree. -/
def matmulShape (a b : ℕ × ℕ) : Option (ℕ × ℕ) :=
  if a.2 = b.1 then some (a.1, b.2) else none

/-- Shape-level trace of the LCMV solver expression
`inv(Ryy) @ B @ inv(B.T @ inv(Ryy) @ B) @ H.T` for a signal with `m`
sensors, a steering matrix with `L` columns and a constraint target of
shape `(q, p)`; `none` marks a numpy shape error. -/
def lcmvSolveShape (m L p q : ℕ) : Option (ℕ × ℕ) :=
  (matmulShape (m, m) (m, L)).bind fun t1 =>
    (matmulShape (L, m) (m, m)).bind fun u1 =>
      (matmulShape u1 (m, L)).bind fun u2 =>
        (if u2.1 = u2.2 then some u2 else none).bind fun u3 =>
          (matmulShape t1 u3).bind fun t2 => matmulShape t2 (p, q)

theorem linspace01_eq_div (k : ℕ) :
    linspace01 k = (List.range k).map fun (j : ℕ) => (j : ℚ) / (k : ℚ) := by
  unfold linspace01
  refine List.map_congr_left fun j _ => ?_
  rw [Rat.mkRat_eq_div]
  push_cast [Int.ofNat_eq_natCast]
  ring

theorem make_symmetric_transpose {m : ℕ} (M : Matrix (Fin m) (Fin m) K) :
    (make_symmetric M)ᵀ = make_symmetric M := by
  simp [make_symmetric, transpose_add, add_comm]

/-- Claim C7: `autocorrelation_matrix Y` with the default normalizer is the exact
average of `(Y·Yᵀ)/n` with its transpose, where `n` is the sample count, and
consequently equals its own transpose. -/
theorem autocorrelation_matrix_symmetric {m n : ℕ} (Y : Matrix (Fin m) (Fin n) K) :
    autocorrelation_matrix Y none =
      (2 : K)⁻¹ • (((n : K)⁻¹ • (Y * Yᵀ)) + ((n : K)⁻¹ • (Y * Yᵀ))ᵀ) ∧
    (autocorrelation_matrix Y none)ᵀ = autocorrelation_matrix Y none :=
  ⟨rfl, make_symmetric_transpose _⟩

/-- Claim C2: the drift-weight sequence is all zeros below 10 windows, otherwise
the concatenation of the three endpoint-free ramps; for 20 windows it has
length 20, all values in `[0, 1)`, and exactly two downward discontinuities. -/
theorem weight_function_shape (n : ℕ) :
    (n < 10 → weight_function n = List.replicate n 0) ∧
    (10 ≤ n → weight_function n =
      linspace01 (5 * n / 10) ++ linspace01 (3 * n / 10) ++ linspace01 (2 * n / 10)) ∧
    (weight_function 20).length = 20 ∧
    (∀ x ∈ weight_function 20, 0 ≤ x ∧ x < 1) ∧
    downSteps (weight_function 20) = 2 := by
  refine ⟨fun h => ?_, fun h => ?_, by decide, by decide, by decide⟩
  · rw [weight_function, if_pos h]
  · rw [weight_function, if_neg (by omega)]

/-- Claim C2 witness: the theorem applied at 5 windows. -/
theorem weight_function_shape_witness :
    weight_function 5 = List.replicate 5 0 :=
  (weight_function_shape 5).1 (by decide)

theorem matInv_eq_inv {k : ℕ} (A : Matrix (Fin k) (Fin k) K) : matInv A = A⁻¹ := by
  rw [matInv, Matrix.inv_def, Ring.inverse_eq_inv]

theorem autocorrelation_transpose {m n : ℕ} (Y : Matrix (Fin m) (Fin n) K)
    (normalizer : Option ℕ) :
    (autocorrelation_matrix Y normalizer)ᵀ = autocorrelation_matrix Y normalizer :=
  make_symmetric_transpose _

/-- Claim C3: on `Y = [[1,3],[0,0]]` (two sensors, two samples, row means `(2,0)`),
`covariance_matrix` and `cross_covariance_matrix` subtract the broadcast
scalar `μ·μ = 4` from every entry, yielding `[[1,-4],[-4,-4]]`, whereas the
outer-product subtraction the specification describes yields `[[1,0],[0,0]]`. -/
theorem covariance_matrix_mean_bug :
    covariance_matrix (!![1, 3; 0, 0] : Matrix (Fin 2) (Fin 2) ℚ) none = !![1, -4; -4, -4] ∧
    cross_covariance_matrix (!![1, 3; 0, 0] : Matrix (Fin 2) (Fin 2) ℚ) !![1, 3; 0, 0] none =
      !![1, -4; -4, -4] ∧
    make_symmetric
        ((2 : ℚ)⁻¹ • (!![1, 3; 0, 0] * (!![1, 3; 0, 0] : Matrix (Fin 2) (Fin 2) ℚ)ᵀ)) -
        vecMulVec (rowMean (!![1, 3; 0, 0] : Matrix (Fin 2) (Fin 2) ℚ))
          (rowMean (!![1, 3; 0, 0] : Matrix (Fin 2) (Fin 2) ℚ)) = !![1, 0; 0, 0] ∧
    (!![1, -4; -4, -4] : Matrix (Fin 2) (Fin 2) ℚ) ≠ !![1, 0; 0, 0] :=
  of_decide_eq_true (by with_unfolding_all rfl)

/-- Claim C9 counterexample: the MMSE `get_problem_constraints` returns the bare
Python `None`, not the pair `(None, None)` the claim describes. -/
theorem mmse_constraints_not_pair :
    (@mmse_get_problem_constraints ℚ 1 1 1) ≠ ConstraintType.pair none none := by
  unfold mmse_get_problem_constraints
  exact fun h => ConstraintType.noConfusion h

/-- Claim C9 amended: `get_problem_constraints` of the LCMV problem returns the
pair of the equality residual `X ↦ X.T @ B - H` and no inequality residual,
while the MMSE problem returns a bare null value in place of a pair. -/
theorem get_problem_constraints_values {m p q : ℕ} (B : Matrix (Fin m) (Fin p) ℚ)
    (H : Matrix (Fin q) (Fin p) ℚ) :
    lcmv_get_problem_constraints B H =
      ConstraintType.pair (some fun X => Xᵀ * B - H) none ∧
    (@mmse_get_problem_constraints ℚ m p q) = ConstraintType.null :=
  ⟨rfl, rfl⟩

/-- Claim C1: with `Ryy = autocorrelation_matrix(Y)` and `B.T @ inv(Ryy) @ B` both
invertible, the LCMV solver returns
`X* = inv(Ryy) @ B @ inv(B.T @ inv(Ryy) @ B) @ H.T`, and this `X*` satisfies
the equality constraint exactly: `X*.T @ B - H = 0`. -/
theorem lcmv_solve_constraint {m n p q : ℕ} (Y : Matrix (Fin m) (Fin n) K)
    (B : Matrix (Fin m) (Fin p) K) (H : Matrix (Fin q) (Fin p) K)
    (h1 : IsUnit (autocorrelation_matrix Y none).det)
    (h2 : IsUnit (Bᵀ * matInv (autocorrelation_matrix Y none) * B).det) :
    lcmv_solve Y B H =
      (autocorrelation_matrix Y none)⁻¹ * B *
        (Bᵀ * (autocorrelation_matrix Y none)⁻¹ * B)⁻¹ * Hᵀ ∧
    (lcmv_solve Y B H)ᵀ * B - H = 0 := by
  rw [matInv_eq_inv] at h2
  have hX : lcmv_solve Y B H =
      (autocorrelation_matrix Y none)⁻¹ * B *
        (Bᵀ * (autocorrelation_matrix Y none)⁻¹ * B)⁻¹ * Hᵀ := by
    simp only [lcmv_solve, matInv_eq_inv]
  refine ⟨hX, ?_⟩
  rw [hX, sub_eq_zero]
  have hR : (autocorrelation_matrix Y none)⁻¹ᵀ = (autocorrelation_matrix Y none)⁻¹ := by
    rw [Matrix.transpose_nonsing_inv, autocorrelation_transpose]
  have hM : (Bᵀ * (autocorrelation_matrix Y none)⁻¹ * B)ᵀ =
      Bᵀ * (autocorrelation_matrix Y none)⁻¹ * B := by
    rw [Matrix.transpose_mul, Matrix.transpose_mul, Matrix.transpose_transpose, hR,
      Matrix.mul_assoc]
  calc ((autocorrelation_matrix Y none)⁻¹ * B *
          (Bᵀ * (autocorrelation_matrix Y none)⁻¹ * B)⁻¹ * Hᵀ)ᵀ * B
      = H * ((Bᵀ * (autocorrelation_matrix Y none)⁻¹ * B)⁻¹ *
          (Bᵀ * ((autocorrelation_matrix Y none)⁻¹ * B))) := by
        rw [Matrix.transpose_mul, Matrix.transpose_mul, Matrix.transpose_mul,
          Matrix.transpose_transpose, Matrix.transpose_nonsing_inv, hM, hR]
        simp only [Matrix.mul_assoc]
    _ = H := by
        rw [show Bᵀ * ((autocorrelation_matrix Y none)⁻¹ * B) =
            Bᵀ * (autocorrelation_matrix Y none)⁻¹ * B from
            (Matrix.mul_assoc _ _ _).symm,
          Matrix.nonsing_inv_mul _ h2, Matrix.mul_one]

/-- Claim C1 witness: the theorem applied to the one-sensor window `Y = [2]`,
steering matrix `B = [1]` and constraint target `H = [3]`. -/
theorem lcmv_solve_constraint_witness :
    (lcmv_solve (!![2] : Matrix (Fin 1) (Fin 1) ℚ) !![1] !![3])ᵀ * !![1] - !![3] = 0 :=
  (lcmv_solve_constraint !![2] !![1] !![3]
    (isUnit_iff_ne_zero.mpr (of_decide_eq_true (by with_unfolding_all rfl)))
    (isUnit_iff_ne_zero.mpr (of_decide_eq_true (by with_unfolding_all rfl)))).2

/-- Claim C5: whenever the problem inputs are valid for an instance configured with
`Q` filters — the constraint target has `Q` rows for LCMV, the target signal
has `Q` rows for MMSE — the estimator returned by `solve` has exactly `Q`
columns, for both problems. -/
theorem solve_ncols {m n p q Q : ℕ} (Y : Matrix (Fin m) (Fin n) ℚ)
    (B : Matrix (Fin m) (Fin p) ℚ) (H : Matrix (Fin q) (Fin p) ℚ)
    (D : Matrix (Fin q) (Fin n) ℚ) (hvalid : q = Q) :
    ncols (lcmv_solve Y B H) = Q ∧ ncols (mmse_solve Y D) = Q :=
  ⟨hvalid, hvalid⟩

/-- Claim C5 witness: the theorem applied at a concrete `2`-filter configuration. -/
theorem solve_ncols_witness :
    ncols (lcmv_solve (!![0] : Matrix (Fin 1) (Fin 1) ℚ) !![0] !![0; 0]) = 2 ∧
    ncols (mmse_solve (!![0] : Matrix (Fin 1) (Fin 1) ℚ) !![0; 0]) = 2 :=
  solve_ncols !![0] !![0] !![0; 0] !![0; 0] rfl

theorem npGet_none_of_length_le {α : Type} (xs : List α) (i : ℤ)
    (h : (xs.length : ℤ) ≤ i) : npGet xs i = none := by
  rw [npGet, if_pos (by omega)]
  exact List.getElem?_eq_none (by omega)

theorem npGet_none_of_lt_neg_length {α : Type} (xs : List α) (i : ℤ)
    (h : i < -(xs.length : ℤ)) : npGet xs i = none := by
  rw [npGet, if_neg (by omega), if_pos (by omega)]

theorem npGet_wrap {α : Type} (xs : List α) (i : ℤ) (h1 : -(xs.length : ℤ) ≤ i)
    (h2 : i < 0) : npGet xs i = npGet xs ((xs.length : ℤ) + i) := by
  rw [npGet, if_neg (by omega), if_neg (by omega), npGet, if_pos (by omega)]

/-- Claim C4 amended: a window index at or beyond the length of the precomputed
weight sequence fails with a bounds error, as does an index below its
negation; but a negative index within range does not fail — it wraps
around to the window counted from the end, following numpy indexing. -/
theorem get_data_window_bounds {a b c w f s : ℕ} (sqrtK : ℚ → ℚ)
    (self : LCMVRetrieverState ℚ a b c w f s) :
    (∀ i : ℤ, (self.weights.length : ℤ) ≤ i → get_data_window sqrtK self i = none) ∧
    (∀ i : ℤ, i < -(self.weights.length : ℤ) → get_data_window sqrtK self i = none) ∧
    (∀ i : ℤ, -(self.weights.length : ℤ) ≤ i → i < 0 →
      get_data_window sqrtK self i =
        get_data_window sqrtK self ((self.weights.length : ℤ) + i)) := by
  refine ⟨fun i h => ?_, fun i h => ?_, fun i h1 h2 => ?_⟩
  · rw [get_data_window, npGet_none_of_length_le _ _ h]
  · rw [get_data_window, npGet_none_of_lt_neg_length _ _ h]
  · rw [get_data_window, get_data_window, npGet_wrap _ _ h1 h2]

/-- Claim C4 witness: the amended theorem applied to a concrete ten-window
retriever at window index 20. -/
theorem get_data_window_bounds_witness :
    get_data_window (id : ℚ → ℚ)
      (LCMVDataRetriever_init id ⟨1⟩ 1 1 10 ⟨fun _ => 0, 0⟩ 1 none 0 0 0 0) 20 = none :=
  (get_data_window_bounds id _).1 20 (by decide)

/-- Claim C4 counterexample: on a ten-window retriever, window index `-1` does not
fail with a bounds error; it wraps around and returns the same window as
index 9. -/
theorem get_data_window_neg_wraps :
    (get_data_window (id : ℚ → ℚ)
        (LCMVDataRetriever_init id ⟨1⟩ 1 1 10 ⟨fun _ => 0, 0⟩ 1 none 0 0 0 0)
        (-1)).isSome = true ∧
    get_data_window (id : ℚ → ℚ)
        (LCMVDataRetriever_init id ⟨1⟩ 1 1 10 ⟨fun _ => 0, 0⟩ 1 none 0 0 0 0) (-1) =
      get_data_window (id : ℚ → ℚ)
        (LCMVDataRetriever_init id ⟨1⟩ 1 1 10 ⟨fun _ => 0, 0⟩ 1 none 0 0 0 0) 9 :=
  ⟨of_decide_eq_true (by with_unfolding_all rfl), by with_unfolding_all rfl⟩

theorem weight_function_eq_legacy (n : ℕ) (h : 10 ≤ n) :
    weight_function n = legacy_weight_function n := by
  rw [weight_function, if_neg (by omega)]
  rfl

/-- Claim C6 amended: for ten or more windows, the legacy retriever constructed
with the same draws and hyperparameters (the sample length passed directly
rather than through a windowing-parameters object) has the same state —
in particular the same weight sequence — as the canonical retriever, and
returns the same window for every window index. Below ten windows the
equivalence does not hold in general (it fails at five windows). -/
theorem legacy_retriever_equiv (sqrtK : ℚ → ℚ)
    (nb_samples nb_sensors nb_sources nb_windows : ℕ) (rng : RNG ℚ) (nb_filters : ℕ)
    (nb_steering : Option ℕ) (signal_var noise_var mixture_var diff_var : ℚ)
    (h : 10 ≤ nb_windows) :
    legacy_LCMVDataRetriever_init sqrtK nb_samples nb_sensors nb_sources nb_windows rng
        nb_filters nb_steering signal_var noise_var mixture_var diff_var =
      LCMVDataRetriever_init sqrtK ⟨nb_samples⟩ nb_sensors nb_sources nb_windows rng
        nb_filters nb_steering signal_var noise_var mixture_var diff_var ∧
    ∀ wid : ℤ,
      get_current_window sqrtK
          (legacy_LCMVDataRetriever_init sqrtK nb_samples nb_sensors nb_sources nb_windows
            rng nb_filters nb_steering signal_var noise_var mixture_var diff_var) wid =
        get_data_window sqrtK
          (LCMVDataRetriever_init sqrtK ⟨nb_samples⟩ nb_sensors nb_sources nb_windows rng
            nb_filters nb_steering signal_var noise_var mixture_var diff_var) wid := by
  have hw : legacy_weight_function nb_windows = weight_function nb_windows :=
    (weight_function_eq_legacy nb_windows h).symm
  have hs : legacy_LCMVDataRetriever_init sqrtK nb_samples nb_sensors nb_sources
      nb_windows rng nb_filters nb_steering signal_var noise_var mixture_var diff_var =
      LCMVDataRetriever_init sqrtK ⟨nb_samples⟩ nb_sensors nb_sources nb_windows rng
        nb_filters nb_steering signal_var noise_var mixture_var diff_var := by
    unfold legacy_LCMVDataRetriever_init LCMVDataRetriever_init
    rw [hw]
  exact ⟨hs, fun wid => by rw [hs]; rfl⟩

/-- Claim C6 witness: the amended theorem applied at ten windows with concrete
arguments. -/
theorem legacy_retriever_equiv_witness :
    legacy_LCMVDataRetriever_init (id : ℚ → ℚ) 1 1 1 10 ⟨fun _ => 0, 0⟩ 1 none 0 0 0 0 =
      LCMVDataRetriever_init (id : ℚ → ℚ) ⟨1⟩ 1 1 10 ⟨fun _ => 0, 0⟩ 1 none 0 0 0 0 :=
  (legacy_retriever_equiv id 1 1 1 10 ⟨fun _ => 0, 0⟩ 1 none 0 0 0 0 (by decide)).1

/-- Claim C6 counterexample: at five windows the legacy retriever stores the
weight sequence `[0, 1/2, 0, 0]` while the canonical retriever stores
`[0, 0, 0, 0, 0]`. -/
theorem legacy_retriever_not_equiv :
    (legacy_LCMVDataRetriever_init (id : ℚ → ℚ) 1 1 1 5 ⟨fun _ => 0, 0⟩ 1 none
        0 0 0 0).weights ≠
      (LCMVDataRetriever_init (id : ℚ → ℚ) ⟨1⟩ 1 1 5 ⟨fun _ => 0, 0⟩ 1 none
        0 0 0 0).weights :=
  of_decide_eq_true (by with_unfolding_all rfl)

/-- Claim C8: two retrievers constructed from identical seeded generators and
identical hyperparameters return identical problem inputs (fused signals,
fused constants and global parameters) for every window index; window
generation reads only the constructed state, never anything shared. -/
theorem retriever_determinism (sqrtK : ℚ → ℚ) (params : DataWindowParameters)
    (nb_sensors nb_sources nb_windows : ℕ) (rng1 rng2 : RNG ℚ) (nb_filters : ℕ)
    (nb_steering : Option ℕ) (signal_var noise_var mixture_var diff_var : ℚ)
    (hrng : rng1 = rng2) :
    ∀ wid : ℤ,
      get_data_window sqrtK
          (LCMVDataRetriever_init sqrtK params nb_sensors nb_sources nb_windows rng1
            nb_filters nb_steering signal_var noise_var mixture_var diff_var) wid =
        get_data_window sqrtK
          (LCMVDataRetriever_init sqrtK params nb_sensors nb_sources nb_windows rng2
            nb_filters nb_steering signal_var noise_var mixture_var diff_var) wid := by
  subst hrng
  intro wid
  rfl

/-- Claim C8 witness: the theorem applied to two concrete identically seeded
generators at window 0. -/
theorem retriever_determinism_witness :
    get_data_window (id : ℚ → ℚ)
        (LCMVDataRetriever_init id ⟨1⟩ 1 1 10 ⟨fun _ => 0, 0⟩ 1 none 0 0 0 0) 0 =
      get_data_window (id : ℚ → ℚ)
        (LCMVDataRetriever_init id ⟨1⟩ 1 1 10 ⟨fun _ => 0, 0⟩ 1 none 0 0 0 0) 0 :=
  retriever_determinism id ⟨1⟩ 1 1 10 ⟨fun _ => 0, 0⟩ ⟨fun _ => 0, 0⟩ 1 none 0 0 0 0
    rfl 0

/-- Claim C10: constructed with `nb_steering = None`, the retriever's steering
matrix is all of `A_0` (its width is `nb_sources`), while the stored
`nb_steering` and the constraint target are sized by `nb_filters`; whenever
`nb_sources ≠ nb_filters` the LCMV solver expression is a numpy shape
mismatch on these inputs. -/
theorem nb_steering_none_mismatch (sqrtK : ℚ → ℚ) (params : DataWindowParameters)
    (nb_sensors nb_sources nb_windows : ℕ) (rng : RNG ℚ) (nb_filters : ℕ)
    (signal_var noise_var mixture_var diff_var : ℚ) :
    sliceWidth nb_sources none = nb_sources ∧
    (LCMVDataRetriever_init sqrtK params nb_sensors nb_sources nb_windows rng nb_filters
        none signal_var noise_var mixture_var diff_var).B =
      (LCMVDataRetriever_init sqrtK params nb_sensors nb_sources nb_windows rng nb_filters
        none signal_var noise_var mixture_var diff_var).A_0 ∧
    stored_nb_steering nb_filters none = nb_filters ∧
    (nb_sources ≠ nb_filters →
      lcmvSolveShape nb_sensors (sliceWidth nb_sources none)
        (stored_nb_steering nb_filters none) nb_filters = none) := by
  refine ⟨rfl, rfl, rfl, fun hneq => ?_⟩
  simp [lcmvSolveShape, matmulShape, sliceWidth, stored_nb_steering, hneq]

/-- Claim C10 witness: the theorem applied to a retriever with two sources and one
filter. -/
theorem nb_steering_none_mismatch_witness :
    lcmvSolveShape 1 (sliceWidth 2 none) (stored_nb_steering 1 none) 1 = none :=
  (nb_steering_none_mismatch id ⟨1⟩ 1 2 10 ⟨fun _ => 0, 0⟩ 1 0 0 0 0).2.2.2 (by decide)

end DASF
